import Mathlib

/-
Verification of the backend-switching runtime of the ivy repository
(`ivy/utils/backend/handler.py`): the backend stack, namespace rebinding,
version-specific function resolution, backend inference from arguments,
and the dynamic-backend conversion protocol.

Modelling conventions:
* Python dicts are association lists (`List (κ × α)`); assignment
  (`d[k] = v`) updates the entry in place when the key is present and
  appends otherwise, matching Python dict insertion-order semantics.
* A loaded backend module is identified by its import path
  (e.g. "ivy.functional.backends.torch"); the per-process environment
  (`Env`) records, per module path, whether the import succeeds, the
  module's attribute dict, its invalid dtypes, and the underlying
  framework's reported `__version__` string.
* Python strings are `String`; character-level operations of the source
  (`str.index`, slicing, `split`) are modelled on `List Char`.
* Machinery the handler calls that lives outside `src/`
  (`_wrap_function` from `ivy/func_wrapper.py`, `_is_variable` from the
  gradients module, the assertion helpers) is modelled from the spec and
  marked as such in doc comments.
-/

namespace IvyHandler

/-! ## Python dict primitives -/

/-- Python dict assignment `d[k] = v` on an association list: if `k` is
present its entry is updated in place (insertion order kept), otherwise
the pair is appended. -/
def pyDictInsert [DecidableEq κ] (d : List (κ × α)) (k : κ) (v : α) :
    List (κ × α) :=
  if (d.lookup k).isSome then
    d.map (fun p => if p.1 = k then (k, v) else p)
  else d ++ [(k, v)]

/-- Python `del d[k]` on an association list. -/
def pyDictErase [DecidableEq κ] (d : List (κ × α)) (k : κ) : List (κ × α) :=
  d.filter (fun p => decide (p.1 ≠ k))

/-- Python dict comprehension `{k: v for (k, v) in ps}`: later duplicate
keys overwrite the value stored at the key's first-insertion position. -/
def pyDictFromPairs [DecidableEq κ] (ps : List (κ × α)) : List (κ × α) :=
  ps.foldl (fun d p => pyDictInsert d p.1 p.2) []

/-! ## Character-level string operations (Python `str`) -/

/-- Python `hay.find(needle)` / `hay.index(needle)`: index of the first
occurrence of `needle` in `hay`, or `none` when absent. -/
def strFind : List Char → List Char → Option Nat
  | [], needle => if needle.isEmpty then some 0 else none
  | c :: cs, needle =>
    if needle.isPrefixOf (c :: cs) then some 0
    else (strFind cs needle).map (· + 1)

/-- Python `needle in hay` for strings. -/
def strContains (hay needle : List Char) : Bool :=
  (strFind hay needle).isSome

/-- Python `s.split(sep)` for a one-character separator. -/
def splitOnChar (sep : Char) : List Char → List (List Char)
  | [] => [[]]
  | c :: cs =>
    if c = sep then [] :: splitOnChar sep cs
    else
      match splitOnChar sep cs with
      | [] => [[c]]
      | t :: ts => (c :: t) :: ts

/-- Python `int(s)` on the digit strings appearing in version markers
(`none` models the `ValueError` raised on a malformed component). -/
def parseNat? (s : List Char) : Option Nat :=
  if s.isEmpty then none
  else if s.all (·.isDigit) then
    some (s.foldl (fun acc c => acc * 10 + (c.toNat - 48)) 0)
  else none

/-- Python `<=` on integer tuples: lexicographic, a strict prefix being
smaller. -/
def tupLe : List Nat → List Nat → Bool
  | [], _ => true
  | _ :: _, [] => false
  | a :: as', b :: bs' =>
    if a < b then true else if b < a then false else tupLe as' bs'

/-! ## Namespace values and the function wrapper -/

/-- A value bound in a module namespace: an opaque original attribute
(`base`), a named backend function (`fn`), or a wrapped function record. -/
inductive Val where
  | base (tag : Nat)
  | fn (name : String) (tag : Nat)
  | wrapped (key : String) (toWrap : Val) (original : Val)
      (compositional : Bool)
deriving DecidableEq

/-- Modelled from the spec: `_wrap_function` (from `ivy/func_wrapper.py`,
which is not under `src/`) wraps a backend implementation together with
its original fallback and a compositional flag, and is idempotent — an
already-wrapped function is not wrapped again (spec section 4.4). -/
def _wrap_function (key : String) (to_wrap : Val) (original : Val)
    (compositional : Bool) : Val :=
  match to_wrap with
  | .wrapped k t o c => .wrapped k t o c
  | v => .wrapped key v original compositional

/-- Python `fn.__name__ = name` on a namespace value. -/
def valSetName (name : String) : Val → Val
  | .fn _ t => .fn name t
  | v => v

/-! ## Backend registry tables (`handler.py` lines 36-61) -/

/-- Mapping from a native array type's defining module to the ivy backend
module that handles it (`_array_types` in the source). -/
def _array_types : List (String × String) :=
  [("numpy", "ivy.functional.backends.numpy"),
   ("jax.interpreters.xla", "ivy.functional.backends.jax"),
   ("jaxlib.xla_extension", "ivy.functional.backends.jax"),
   ("tensorflow.python.framework.ops", "ivy.functional.backends.tensorflow"),
   ("tensorflow.python.ops.resource_variable_ops",
    "ivy.functional.backends.tensorflow"),
   ("torch", "ivy.functional.backends.torch"),
   ("torch.nn.parameter", "ivy.functional.backends.torch"),
   ("mindspore", "ivy.functional.backends.mindspore"),
   ("mindspore.common.tensor", "ivy.functional.backends.mindspore")]

/-- Registered backend names and their module paths (`_backend_dict`). -/
def _backend_dict : List (String × String) :=
  [("numpy", "ivy.functional.backends.numpy"),
   ("jax", "ivy.functional.backends.jax"),
   ("tensorflow", "ivy.functional.backends.tensorflow"),
   ("torch", "ivy.functional.backends.torch"),
   ("mindspore", "ivy.functional.backends.mindspore")]

/-- Reverse mapping from backend module path to backend name
(`_backend_reverse_dict`). -/
def _backend_reverse_dict : List (String × String) :=
  [("ivy.functional.backends.numpy", "numpy"),
   ("ivy.functional.backends.jax", "jax"),
   ("ivy.functional.backends.tensorflow", "tensorflow"),
   ("ivy.functional.backends.torch", "torch"),
   ("ivy.functional.backends.mindspore", "mindspore")]

/-- Each backend module's `current_backend_str()`: the backend name of a
loaded backend module, identified here by its import path. -/
def current_backend_str (path : String) : String :=
  (_backend_reverse_dict.lookup path).getD ""

/-- Native array module for a backend name, used when the dynamic
converter re-imports data as the new backend's native representation. -/
def nativeModuleOf (backendName : String) : String :=
  match backendName with
  | "numpy" => "numpy"
  | "jax" => "jaxlib.xla_extension"
  | "tensorflow" => "tensorflow.python.framework.ops"
  | "torch" => "torch"
  | "mindspore" => "mindspore.common.tensor"
  | _ => ""

/-- The framework package name extracted from a backend module path in
`set_backend_to_specific_version`:
`f = str(backend.__name__); f = f[f.index("backends") + 9 :]`. -/
def frameworkNameOf (path : String) : String :=
  match strFind path.toList ("backends".toList) with
  | some i => String.mk (path.toList.drop (i + 9))
  | none => ""

/-- The process environment seen by the handler: which backend modules
can be imported successfully, each backend module's attribute dict, its
`invalid_dtypes`, and each underlying framework's `__version__` string
(keyed by framework package name). -/
structure Env where
  installed : String → Bool
  backendDict : String → List (String × Val)
  invalidDtypes : String → List String
  version : String → String

/-! ## Version resolver (`handler.py` lines 125-194) -/

/-- Parsing of the backend's reported version string into an integer
tuple (`handler.py` lines 142-146): any local/build suffix after `+` is
dropped, the rest is split on `.` and each component parsed with `int`. -/
def parseVersionTuple (version : List Char) : Option (List Nat) :=
  match strFind version ['+'] with
  | some i => (splitOnChar '.' (version.take i)).mapM parseNat?
  | none => (splitOnChar '.' version).mapM parseNat?

/-- Name-grammar part of `fn_name_from_version_specific_fn_name`
(`handler.py` lines 147-169), acting on the already-parsed version
tuple: `name_v_<start>_to_<end>` (inclusive closed range),
`name_v_<start>_and_above` (open above), and otherwise the
`_and_`-suffixed open-below form.  `.ok (some base)` returns the
canonical name, `.ok none` models falling off the end (Python `None`),
`.error` models the `ValueError` raised by `str.index` or `int`. -/
def fn_name_core (name : List Char) (version : List Nat) :
    Except String (Option (List Char)) :=
  if strContains name ("_to_".toList) then
    match strFind name ("_v_".toList), strFind name ("_to_".toList) with
    | some i, some e =>
      match (splitOnChar 'p' ((name.drop (i + 3)).take (e - (i + 3)))).mapM
              parseNat?,
            (splitOnChar 'p' (name.drop (e + 4))).mapM parseNat? with
      | some version_start, some version_end =>
        if tupLe version_start version && tupLe version version_end then
          .ok (some (name.take i))
        else .ok none
      | _, _ => .error "invalid literal for int"
    | _, _ => .error "substring not found"
  else if strContains name ("_and_above".toList) then
    match strFind name ("_v_".toList), strFind name ("_and_".toList) with
    | some i, some e =>
      match (splitOnChar 'p' ((name.drop (i + 3)).take (e - (i + 3)))).mapM
              parseNat? with
      | some version_start =>
        if tupLe version_start version then .ok (some (name.take i))
        else .ok none
      | none => .error "invalid literal for int"
    | _, _ => .error "substring not found"
  else
    match strFind name ("_v_".toList), strFind name ("_and_".toList) with
    | some i, some e =>
      match (splitOnChar 'p' ((name.drop (i + 3)).take (e - (i + 3)))).mapM
              parseNat? with
      | some version_start =>
        if tupLe version version_start then .ok (some (name.take i))
        else .ok none
      | none => .error "invalid literal for int"
    | _, _ => .error "substring not found"

/-- Version-specific name resolution (`fn_name_from_version_specific_fn_name`,
`handler.py` lines 125-169): the version string is parsed first, then the
name grammar decides whether the declared range contains the version. -/
def fn_name_from_version_specific_fn_name (name version : List Char) :
    Except String (Option (List Char)) :=
  match parseVersionTuple version with
  | none => .error "invalid version string"
  | some v => fn_name_core name v

/-- Resolution pass `set_backend_to_specific_version` (`handler.py` lines
172-194): iterate over a snapshot of the backend module's keys; for each
key containing `_v_`, when the declared range matches the framework's
version, bind the canonical name to that implementation and rename the
function object in place (the rename is visible through both keys, since
both dict entries alias the same function object); `if orig_name:` in
the source is Python truthiness, so an empty canonical name binds
nothing. -/
def set_backend_to_specific_version (env : Env) (path : String) :
    Except String (List (String × Val)) :=
  let backendDict := env.backendDict path
  let f_version := env.version (frameworkNameOf path)
  (backendDict.map Prod.fst).foldlM
    (fun d key =>
      if strContains key.toList ("_v_".toList) then
        match fn_name_from_version_specific_fn_name key.toList
                f_version.toList with
        | .error e => .error e
        | .ok none => .ok d
        | .ok (some orig) =>
          if orig.isEmpty then .ok d
          else
            let origName := String.mk orig
            let impl := (d.lookup key).getD (.base 0)
            let renamed := valSetName origName impl
            .ok (pyDictInsert (pyDictInsert d origName renamed) key renamed)
      else .ok d)
    backendDict

/-! ## Backend inference from arguments (`handler.py` lines 77-122) -/

/-- A Python value as inspected by `_determine_backend_from_args`: the
library's own array abstraction (unwrapped to its payload), dicts, lists,
tuples, and any other object identified by its class's defining module. -/
inductive PyVal where
  | ivyArray (data : PyVal)
  | pydict (entries : List (String × PyVal))
  | pylist (elems : List PyVal)
  | pytuple (elems : List PyVal)
  | obj (moduleName : String)

/-- Python `value.__class__.__module__` for the modelled values. -/
def classModule : PyVal → String
  | .obj m => m
  | .ivyArray _ => "ivy.data_classes.array.array"
  | _ => "builtins"

mutual
/-- Backend inference `_determine_backend_from_args` (`handler.py` lines
77-122).  An `ivy.Array` argument is unwrapped to its `data` payload; a
dict (after unwrapping) is searched through its values; a list or tuple
(tested on the pre-unwrap type, `arg_type`) is searched elementwise;
anything else is looked up by its class's defining module in
`_array_types`. -/
def _determine_backend_from_args : PyVal → Option String
  | .pydict es => _determine_backend_from_dict_values es
  | .pylist es => _determine_backend_from_elems es
  | .pytuple es => _determine_backend_from_elems es
  | .obj m => _array_types.lookup m
  | .ivyArray (.pydict es) => _determine_backend_from_dict_values es
  | .ivyArray d => _array_types.lookup (classModule d)

/-- Recursion of `_determine_backend_from_args` over dict values, first
match wins. -/
def _determine_backend_from_dict_values :
    List (String × PyVal) → Option String
  | [] => none
  | (_, val) :: rest =>
    match _determine_backend_from_args val with
    | some lib => some lib
    | none => _determine_backend_from_dict_values rest

/-- Recursion of `_determine_backend_from_args` over list/tuple elements,
first match wins. -/
def _determine_backend_from_elems : List PyVal → Option String
  | [] => none
  | x :: xs =>
    match _determine_backend_from_args x with
    | some lib => some lib
    | none => _determine_backend_from_elems xs
end

/-! ## Tracked tensor-like objects and the dynamic converter
(`handler.py` lines 290-395) -/

/-- A live `ivy.Array` instance as seen by the converter: its own Python
identity (`oid`), the identity of its native payload (`dataId`, Python
`id(arr.data)`), whether `arr.__dict__` is non-empty (`initialized`), the
opt-in `dynamic_backend` flag, the defining module of its payload's
class, and whether the payload is a differentiable variable. -/
structure IvyArr where
  oid : Nat
  dataId : Nat
  initialized : Bool
  dynamic_backend : Bool
  payloadModule : String
  isVariable : Bool
deriving DecidableEq

/-- An entry of a container's `cont_to_flat_list()`: an `ivy.Array` leaf
(identified for de-duplication by `id(item.data)`) or a raw native leaf
(identified by `id(item)`); `handler.py` lines 323-327. -/
inductive Leaf where
  | arrLeaf (oid dataId : Nat)
  | rawLeaf (oid : Nat)
deriving DecidableEq

/-- Payload identity of a flattened container leaf
(`id(item.data) if isinstance(item, ivy.Array) else id(item)`). -/
def leafId : Leaf → Nat
  | .arrLeaf _ d => d
  | .rawLeaf o => o

/-- A live `ivy.Container` instance as seen by the converter. -/
structure IvyCont where
  oid : Nat
  dynamic_backend : Bool
  leaves : List Leaf
  payloadModule : String
  isVariable : Bool
deriving DecidableEq

/-- An object collected into `numpy_objs` during the export phase:
either a standalone array or a container. -/
inductive ConvObj where
  | arrObj (a : IvyArr)
  | contObj (c : IvyCont)
deriving DecidableEq

/-- Modelled from the spec: `_is_variable` (gradients module, not under
`src/`) reports whether a native payload is a differentiable variable;
tracked objects carry that answer as their `isVariable` flag.  The
surrounding module test is `_is_var` from the source (lines 294-318):
payloads whose class module is numpy's or jax's are never variables. -/
def _is_var (o : ConvObj) : Bool :=
  match o with
  | .arrObj a =>
    if a.payloadModule = "numpy" ∨ a.payloadModule = "jax.interpreters.xla"
        ∨ a.payloadModule = "jaxlib.xla_extension" then false
    else a.isVariable
  | .contObj c =>
    if c.payloadModule = "numpy" ∨ c.payloadModule = "jax.interpreters.xla"
        ∨ c.payloadModule = "jaxlib.xla_extension" then false
    else c.isVariable

/-- Container/leaf de-duplication `_remove_intermediate_arrays`
(`handler.py` lines 320-335): flatten every container to its leaf list,
collect the leaves' payload identities, and keep only the standalone
arrays whose payload identity does not occur among them — via a Python
dict comprehension keyed by payload identity, so duplicate standalone
payloads also collapse to one entry. -/
def _remove_intermediate_arrays (arr_list : List IvyArr)
    (cont_list : List IvyCont) : List IvyArr :=
  let flat := cont_list.map (·.leaves)
  let cont_ids := flat.flatten.map leafId
  let arr_ids := arr_list.map (·.dataId)
  (pyDictFromPairs
    ((arr_ids.zip arr_list).filter (fun p => !(cont_ids.contains p.1)))).map
    Prod.snd

/-- Export phase `convert_from_source_backend_to_numpy` (`handler.py`
lines 290-369).  Uninitialized arrays are dropped, standalone arrays
sharing a payload with a container leaf are removed, containers are
appended, and every remaining object with `dynamic_backend` set is
recorded in `numpy_objs` (variables additionally in `variable_ids`) and
its payload overwritten in place with the neutral numpy form — the
in-place mutation is modelled by updating the object matched by `oid`. -/
def convert_from_source_backend_to_numpy (variable_ids : List Nat)
    (numpy_objs : List ConvObj) (array_list : List IvyArr)
    (container_list : List IvyCont) :
    List Nat × List ConvObj × List IvyArr × List IvyCont :=
  let initialized_arrays := array_list.filter (·.initialized)
  let new_objs := _remove_intermediate_arrays initialized_arrays container_list
  let selArr := new_objs.filter (·.dynamic_backend)
  let selCont := container_list.filter (·.dynamic_backend)
  let variable_ids' := variable_ids
    ++ (selArr.filter (fun a => _is_var (.arrObj a))).map (·.oid)
    ++ (selCont.filter (fun c => _is_var (.contObj c))).map (·.oid)
  let numpy_objs' := numpy_objs ++ selArr.map ConvObj.arrObj
    ++ selCont.map ConvObj.contObj
  let arrays' := array_list.map (fun a =>
    if selArr.any (fun b => b.oid == a.oid) then
      { a with payloadModule := "numpy" }
    else a)
  let conts' := container_list.map (fun c =>
    if c.dynamic_backend then { c with payloadModule := "numpy" } else c)
  (variable_ids', numpy_objs', arrays', conts')

/-! ## Handler state and the public operations -/

/-- The process-wide mutable state of the handler: the backend stack
(module paths, last = active), the implicit default backend name, the
public `ivy` namespace dict, the Original Namespace Snapshot, the
`backend_setter` lock, the backend-specific globals (default device and
the jax RNG attribute), and the live tracked objects. -/
structure HandlerState where
  backend_stack : List String
  implicit_backend : String
  ivy_dict : List (String × Val)
  ivy_original_dict : List (String × Val)
  lockHeld : Bool
  defaultDevice : Option String
  rngAttr : Bool
  arrays : List IvyArr
  containers : List IvyCont
deriving DecidableEq

/-- The errors the handler itself raises (`InvalidBackendError` from the
registration check, an import error for an uninstalled backend, a
version-parse error, the assertion in `choose_random_backend`, and
numpy's `ValueError` on an empty choice list). -/
inductive IvyError where
  | invalidBackend
  | importError (path : String)
  | versionParseError (msg : String)
  | assertionError
  | valueError
deriving DecidableEq

/-- Namespace rebinding `_set_backend_as_ivy` (`handler.py` lines
252-281), one namespace level: walk the Original Namespace Snapshot; a
name the backend lacks that is an invalid dtype is deleted from the
target; a name the backend lacks otherwise is backfilled into the
backend dict from the original; every surviving name is bound in the
target to the wrapped implementation.  Returns the updated target and
backend dicts.  The recursive clause of the source (lines 269-280)
descends into nested sub-namespace modules and neither adds nor removes
top-level names, so it is not reflected in the top-level dict modelled
here. -/
def _set_backend_as_ivy (original_dict : List (String × Val))
    (target backend : List (String × Val)) (invalid_dtypes : List String) :
    List (String × Val) × List (String × Val) :=
  match original_dict with
  | [] => (target, backend)
  | (k, v) :: rest =>
    if (backend.lookup k).isNone && invalid_dtypes.contains k
        && (target.lookup k).isSome then
      _set_backend_as_ivy rest (pyDictErase target k) backend invalid_dtypes
    else
      _set_backend_as_ivy rest
        (pyDictInsert target k
          (_wrap_function k
            (((if (backend.lookup k).isNone then pyDictInsert backend k v
               else backend).lookup k).getD v)
            v (backend.lookup k).isNone))
        (if (backend.lookup k).isNone then pyDictInsert backend k v
         else backend)
        invalid_dtypes

/-- Stack pop `unset_backend` (`handler.py` lines 547-608): pop the top
backend (returning `none` on an empty stack), undo its numpy/jax global
registrations, re-register those of the new top, and rebind the public
namespace against the new top's dict (wrapped) or, when the stack is now
empty, against the Original Namespace Snapshot (unwrapped). -/
def unset_backend (env : Env) (st : HandlerState) :
    Option String × HandlerState :=
  if st.backend_stack.isEmpty then (none, st)
  else
    let backend := (st.backend_stack.getLast?).getD ""
    let stack' := st.backend_stack.dropLast
    let dev1 :=
      if current_backend_str backend = "numpy" then none else st.defaultDevice
    let rng1 :=
      if current_backend_str backend = "jax" then false else st.rngAttr
    let dev2 :=
      match stack'.getLast? with
      | some nb => if current_backend_str nb = "numpy" then some "cpu" else dev1
      | none => dev1
    let rng2 :=
      match stack'.getLast? with
      | some nb => if current_backend_str nb = "jax" then true else rng1
      | none => rng1
    let new_backend_dict :=
      match stack'.getLast? with
      | some nb => env.backendDict nb
      | none => st.ivy_original_dict
    let ivy' := new_backend_dict.foldl
      (fun d kv =>
        let v :=
          if !stack'.isEmpty && (st.ivy_original_dict.lookup kv.1).isSome then
            _wrap_function kv.1 kv.2
              ((st.ivy_original_dict.lookup kv.1).getD kv.2) false
          else kv.2
        if (st.ivy_original_dict.lookup kv.1).isSome then
          pyDictInsert d kv.1 v
        else d)
      st.ivy_dict
    (some backend,
     { st with backend_stack := stack', defaultDevice := dev2,
               rngAttr := rng2, ivy_dict := ivy' })

/-- Unwind loop of `set_backend` (`handler.py` lines 441-443):
`while backend_stack: temp_stack.append(unset_backend())`.  Each
iteration pops exactly one entry, so the loop runs `backend_stack.length`
times; that length is supplied as explicit fuel. -/
def unwindAux (env : Env) : Nat → HandlerState → List String →
    List String × HandlerState
  | 0, st, temp => (temp, st)
  | n + 1, st, temp =>
    if st.backend_stack.isEmpty then (temp, st)
    else
      let p := unset_backend env st
      unwindAux env n p.2 (temp ++ [p.1.getD ""])

/-- The unwind loop entered with the current stack length as fuel. -/
def unwindLoop (env : Env) (st : HandlerState) (temp : List String) :
    List String × HandlerState :=
  unwindAux env st.backend_stack.length st temp

/-- Backend resolution `current_backend` (`handler.py` lines 197-249):
the explicit stack top wins; otherwise inference over
`list(args) + list(kwargs.values())` wins and, as a side effect,
overwrites the process-wide `implicit_backend`; otherwise the module of
the implicit default backend is returned. -/
def current_backend (st : HandlerState) (args : List PyVal)
    (kwargs : List (String × PyVal)) : String × HandlerState :=
  match st.backend_stack.getLast? with
  | some f => (f, st)
  | none =>
    match _determine_backend_from_args
        (.pylist (args ++ kwargs.map Prod.snd)) with
    | some f => (f, { st with implicit_backend := current_backend_str f })
    | none => ((_backend_dict.lookup st.implicit_backend).getD "", st)

/-- Import phase `convert_from_numpy_to_target_backend` (`handler.py`
lines 372-395): every object recorded in `numpy_objs` has its payload
re-imported as the new active backend's native representation
(`current_backend().asarray`), reconstructed as a differentiable
variable exactly when its identity was recorded in `variable_ids`. -/
def convert_from_numpy_to_target_backend (variable_ids : List Nat)
    (numpy_objs : List ConvObj) (st : HandlerState) : HandlerState :=
  let targetName := current_backend_str ((st.backend_stack.getLast?).getD "")
  let inNumpyObjs : Nat → Bool := fun i =>
    numpy_objs.any (fun o =>
      match o with
      | .arrObj a => a.oid == i
      | .contObj c => c.oid == i)
  { st with
    arrays := st.arrays.map (fun a =>
      if inNumpyObjs a.oid then
        { a with payloadModule := nativeModuleOf targetName,
                 isVariable := variable_ids.contains a.oid }
      else a),
    containers := st.containers.map (fun c =>
      if inNumpyObjs c.oid then
        { c with payloadModule := nativeModuleOf targetName,
                 isVariable := variable_ids.contains c.oid }
      else c) }

/-- Steps of `set_backend` performed inside the `backend_setter`
critical section (`handler.py` lines 440-460), after the lock has been
acquired and the snapshot taken: the stack is unwound, the requested
backend module is imported (an uninstalled backend raises here), the
unwound stack is replayed, numpy/jax globals are registered, the new
backend is pushed, version-specific names are resolved, the namespace
is rebound, with `dynamic` the import phase runs, and the lock is
released.  The lock release is the last statement of the source, with
no try/finally: an error raised inside the critical section propagates
with the lock still held (`lockHeld` stays `true` in the error state). -/
def set_backend_critical (env : Env) (path : String) (dynamic : Bool)
    (variable_ids : List Nat) (numpy_objs : List ConvObj)
    (st3 : HandlerState) : Except (IvyError × HandlerState) HandlerState :=
  let unwound := unwindLoop env st3 []
  let st4 := unwound.2
  if !(env.installed path) then
    .error (.importError path, st4)
  else
    let st5 := { st4 with backend_stack :=
      st4.backend_stack ++ unwound.1.reverse }
    let st6 := { st5 with
      defaultDevice :=
        if current_backend_str path = "numpy" then some "cpu"
        else st5.defaultDevice,
      rngAttr :=
        if current_backend_str path = "jax" then true else st5.rngAttr }
    let st7 := { st6 with backend_stack := st6.backend_stack ++ [path] }
    match set_backend_to_specific_version env path with
    | .error e => .error (.versionParseError e, st7)
    | .ok resolvedDict =>
      let st8 := { st7 with ivy_dict :=
        (_set_backend_as_ivy st7.ivy_original_dict st7.ivy_dict
          resolvedDict (env.invalidDtypes path)).1 }
      let st9 :=
        if dynamic then
          convert_from_numpy_to_target_backend variable_ids numpy_objs st8
        else st8
      .ok { st9 with lockHeld := false }

/-- Push `set_backend` (`handler.py` lines 398-460).  The registration
check (`ivy.utils.assertions.check_false`, modelled from the spec as
raising `InvalidBackendError`) runs first; with `dynamic` the export
phase runs before the lock; then the `backend_setter` lock is acquired,
the Original Namespace Snapshot is taken on first use, and the locked
steps of `set_backend_critical` run. -/
def set_backend (env : Env) (backend : String) (dynamic : Bool)
    (st : HandlerState) : Except (IvyError × HandlerState) HandlerState :=
  if (_backend_dict.lookup backend).isNone then
    .error (.invalidBackend, st)
  else
    let dyn :=
      if dynamic then
        convert_from_source_backend_to_numpy [] [] st.arrays st.containers
      else ([], [], st.arrays, st.containers)
    let st3 := { st with
      arrays := dyn.2.2.1, containers := dyn.2.2.2,
      lockHeld := true,
      ivy_original_dict :=
        if st.backend_stack.isEmpty then st.ivy_dict
        else st.ivy_original_dict }
    set_backend_critical env ((_backend_dict.lookup backend).getD "")
      dynamic dyn.1 dyn.2.1 st3

/-- A sequence of `set_backend` calls (each with `dynamic = False`),
stopping at the first failure. -/
def set_backend_many (env : Env) (names : List String) (st : HandlerState) :
    Except (IvyError × HandlerState) HandlerState :=
  match names with
  | [] => .ok st
  | n :: rest =>
    match set_backend env n false st with
    | .error e => .error e
    | .ok st' => set_backend_many env rest st'

/-- Calling `unset_backend` `n` times, collecting the returned values. -/
def unset_many (env : Env) : Nat → HandlerState →
    List (Option String) × HandlerState
  | 0, st => ([], st)
  | n + 1, st =>
    let p := unset_backend env st
    let q := unset_many env n p.2
    (p.1 :: q.1, q.2)

/-- Random pick `choose_random_backend` (`handler.py` lines 617-636).
The guard `check_equal(len(excluded), 4, inverse=True)` (assertion
helper modelled from the spec: raises when the two values are equal)
fires when exactly 4 names are excluded; otherwise `np.random.choice`
raises `ValueError` on an empty candidate list or returns an element
(modelled by the index `r`), so the `if f is None` retry branch of the
source's `while True` loop is unreachable and the loop runs once. -/
def choose_random_backend (excluded : List String) (r : Nat) :
    Except IvyError String :=
  if excluded.length = 4 then .error .assertionError
  else
    let candidates :=
      (_backend_dict.map Prod.fst).filter (fun s => !(excluded.contains s))
    match candidates.get? (r % candidates.length) with
    | none => .error .valueError
    | some f => .ok f

/-- A blank handler state: empty stack, numpy as the implicit default,
empty namespace, lock free, no tracked objects. -/
def initState : HandlerState :=
  { backend_stack := [], implicit_backend := "numpy", ivy_dict := [],
    ivy_original_dict := [], lockHeld := false, defaultDevice := none,
    rngAttr := false, arrays := [], containers := [] }

/-- Payload identities of all flattened container leaves, as collected by
`_remove_intermediate_arrays` (`cont_ids` in the source). -/
def contLeafIds (cont_list : List IvyCont) : List Nat :=
  ((cont_list.map (·.leaves)).flatten).map leafId

/-! ## Concrete environments and states used in witnesses and
counterexamples -/

/-- An environment where every backend module imports successfully and
has an empty attribute dict, no invalid dtypes, and version "1.0.0". -/
def envAllInstalled : Env :=
  { installed := fun _ => true, backendDict := fun _ => [],
    invalidDtypes := fun _ => [], version := fun _ => "1.0.0" }

/-- An environment where the mindspore backend module is registered but
not importable (its import raises), as for any uninstalled backend. -/
def envNoMindspore : Env :=
  { installed := fun p => p != "ivy.functional.backends.mindspore",
    backendDict := fun _ => [], invalidDtypes := fun _ => [],
    version := fun _ => "1.0.0" }

/-- An environment whose backends report `invalid_dtypes = ["bfloat16"]`
and define no attributes of their own. -/
def envInvalidDtype : Env :=
  { installed := fun _ => true, backendDict := fun _ => [],
    invalidDtypes := fun _ => ["bfloat16"], version := fun _ => "1.0.0" }

/-- A state whose public namespace (and hence, at the first
`set_backend`, the Original Namespace Snapshot) binds the dtype name
"bfloat16" and an ordinary function name "add". -/
def stSnapshot : HandlerState :=
  { initState with ivy_dict := [("bfloat16", Val.base 0), ("add", Val.base 1)] }

/-- A backend module dict declaring one operation under two
version-specific names, as in the spec's version-resolution scenario. -/
def demoOpDict : List (String × Val) :=
  [("op_v_1p0_to_1p5", Val.fn "op_v_1p0_to_1p5" 1),
   ("op_v_1p6_and_above", Val.fn "op_v_1p6_and_above" 2)]

/-- An environment whose frameworks report version "1.4.0" and whose
backend modules carry `demoOpDict`. -/
def envVersion14 : Env :=
  { installed := fun _ => true, backendDict := fun _ => demoOpDict,
    invalidDtypes := fun _ => [], version := fun _ => "1.4.0" }

/-- An environment whose frameworks report version "2.0.0" and whose
backend modules carry `demoOpDict`. -/
def envVersion20 : Env :=
  { installed := fun _ => true, backendDict := fun _ => demoOpDict,
    invalidDtypes := fun _ => [], version := fun _ => "2.0.0" }

/-- A standalone tracked array whose native payload identity is 5. -/
def arrSharedPayload : IvyArr :=
  { oid := 1, dataId := 5, initialized := true, dynamic_backend := true,
    payloadModule := "torch", isVariable := false }

/-- A tracked container one of whose leaves has the same native payload
identity 5 as `arrSharedPayload`. -/
def contSharedPayload : IvyCont :=
  { oid := 2, dynamic_backend := true, leaves := [Leaf.arrLeaf 3 5],
    payloadModule := "torch", isVariable := false }

/-! ## Association-list lemmas -/

instance instDecEqExcept {ε α : Type} [DecidableEq ε] [DecidableEq α] :
    DecidableEq (Except ε α) := fun a b =>
  match a, b with
  | .error e, .error f =>
    if h : e = f then .isTrue (by rw [h])
    else .isFalse (by intro hh; cases hh; exact h rfl)
  | .ok x, .ok y =>
    if h : x = y then .isTrue (by rw [h])
    else .isFalse (by intro hh; cases hh; exact h rfl)
  | .error _, .ok _ => .isFalse (by intro hh; cases hh)
  | .ok _, .error _ => .isFalse (by intro hh; cases hh)

theorem lookup_cons_self {κ α : Type} [DecidableEq κ] (a : κ) (b : α)
    (l : List (κ × α)) : ((a, b) :: l).lookup a = some b := by
  simp [List.lookup]

theorem lookup_cons_ne {κ α : Type} [DecidableEq κ] (a k : κ) (b : α)
    (l : List (κ × α)) (h : k ≠ a) :
    ((a, b) :: l).lookup k = l.lookup k := by
  simp [List.lookup, beq_false_of_ne h]

theorem lookup_mem {κ β : Type} [DecidableEq κ] (l : List (κ × β)) (k : κ)
    (v : β) (h : l.lookup k = some v) : v ∈ l.map Prod.snd := by
  induction l with
  | nil => simp [List.lookup] at h
  | cons p rest ih =>
    obtain ⟨a, b⟩ := p
    by_cases hk : k = a
    · subst hk
      rw [lookup_cons_self] at h
      obtain rfl : b = v := by injection h
      simp
    · rw [lookup_cons_ne _ _ _ _ hk] at h
      simp [ih h]

theorem lookup_map_update {κ α : Type} [DecidableEq κ] (d : List (κ × α))
    (k : κ) (v : α) :
    (d.map (fun p => if p.1 = k then (k, v) else p)).lookup k
      = (d.lookup k).map (fun _ => v) := by
  induction d with
  | nil => rfl
  | cons p rest ih =>
    obtain ⟨a, b⟩ := p
    simp only [List.map_cons]
    by_cases h : a = k
    · subst h
      rw [if_pos rfl, lookup_cons_self, lookup_cons_self]
      rfl
    · rw [if_neg h, lookup_cons_ne _ _ _ _ (fun hh => h hh.symm),
        lookup_cons_ne _ _ _ _ (fun hh => h hh.symm), ih]

theorem lookup_map_update_ne {κ α : Type} [DecidableEq κ] (d : List (κ × α))
    (k k' : κ) (v : α) (hne : k' ≠ k) :
    (d.map (fun p => if p.1 = k then (k, v) else p)).lookup k'
      = d.lookup k' := by
  induction d with
  | nil => rfl
  | cons p rest ih =>
    obtain ⟨a, b⟩ := p
    simp only [List.map_cons]
    by_cases h : a = k
    · subst h
      rw [if_pos rfl, lookup_cons_ne _ _ _ _ hne,
        lookup_cons_ne _ _ _ _ hne, ih]
    · by_cases h2 : k' = a
      · subst h2
        rw [if_neg h, lookup_cons_self, lookup_cons_self]
      · rw [if_neg h, lookup_cons_ne _ _ _ _ h2,
          lookup_cons_ne _ _ _ _ h2, ih]

theorem lookup_append_of_none {κ α : Type} [DecidableEq κ]
    (d e : List (κ × α)) (k : κ) (h : d.lookup k = none) :
    (d ++ e).lookup k = e.lookup k := by
  induction d with
  | nil => rfl
  | cons p rest ih =>
    obtain ⟨a, b⟩ := p
    by_cases hk : k = a
    · subst hk
      rw [lookup_cons_self] at h
      exact absurd h (by simp)
    · rw [lookup_cons_ne _ _ _ _ hk] at h
      rw [List.cons_append, lookup_cons_ne _ _ _ _ hk]
      exact ih h

theorem lookup_pyDictInsert_self {κ α : Type} [DecidableEq κ]
    (d : List (κ × α)) (k : κ) (v : α) :
    (pyDictInsert d k v).lookup k = some v := by
  unfold pyDictInsert
  split
  · next h =>
    rw [lookup_map_update]
    obtain ⟨w, hw⟩ := Option.isSome_iff_exists.1 h
    simp [hw]
  · next h =>
    rw [lookup_append_of_none _ _ _ (Option.not_isSome_iff_eq_none.1 h)]
    simp [List.lookup]

theorem lookup_append_singleton_ne {κ α : Type} [DecidableEq κ]
    (d : List (κ × α)) (k k' : κ) (v : α) (hne : k' ≠ k) :
    (d ++ [(k, v)]).lookup k' = d.lookup k' := by
  induction d with
  | nil => exact lookup_cons_ne _ _ _ _ hne
  | cons p rest ih =>
    obtain ⟨a, b⟩ := p
    rw [List.cons_append]
    by_cases hk : k' = a
    · subst hk
      rw [lookup_cons_self, lookup_cons_self]
    · rw [lookup_cons_ne _ _ _ _ hk, lookup_cons_ne _ _ _ _ hk]
      exact ih

theorem lookup_pyDictInsert_ne {κ α : Type} [DecidableEq κ]
    (d : List (κ × α)) (k k' : κ) (v : α) (hne : k' ≠ k) :
    (pyDictInsert d k v).lookup k' = d.lookup k' := by
  unfold pyDictInsert
  split
  · exact lookup_map_update_ne d k k' v hne
  · exact lookup_append_singleton_ne d k k' v hne

theorem lookup_pyDictErase_ne {κ α : Type} [DecidableEq κ]
    (d : List (κ × α)) (k k' : κ) (hne : k' ≠ k) :
    (pyDictErase d k).lookup k' = d.lookup k' := by
  unfold pyDictErase
  induction d with
  | nil => rfl
  | cons p rest ih =>
    obtain ⟨a, b⟩ := p
    rw [List.filter_cons]
    by_cases h : a = k
    · subst h
      rw [if_neg (by simp), lookup_cons_ne _ _ _ _ hne]
      exact ih
    · rw [if_pos (by simp [h])]
      by_cases h2 : k' = a
      · subst h2
        rw [lookup_cons_self, lookup_cons_self]
      · rw [lookup_cons_ne _ _ _ _ h2, lookup_cons_ne _ _ _ _ h2]
        exact ih

theorem lookup_pyDictErase_self {κ α : Type} [DecidableEq κ]
    (d : List (κ × α)) (k : κ) :
    (pyDictErase d k).lookup k = none := by
  unfold pyDictErase
  induction d with
  | nil => rfl
  | cons p rest ih =>
    obtain ⟨a, b⟩ := p
    rw [List.filter_cons]
    by_cases h : a = k
    · subst h
      rw [if_neg (by simp)]
      exact ih
    · rw [if_pos (by simp [h]), lookup_cons_ne _ _ _ _ (fun hh => h hh.symm)]
      exact ih

theorem lookup_eq_none_iff {κ α : Type} [DecidableEq κ]
    (d : List (κ × α)) (k : κ) :
    d.lookup k = none ↔ k ∉ d.map Prod.fst := by
  induction d with
  | nil => simp [List.lookup]
  | cons p rest ih =>
    obtain ⟨a, b⟩ := p
    by_cases h : k = a
    · subst h
      rw [lookup_cons_self]
      simp
    · rw [lookup_cons_ne _ _ _ _ h]
      simp [ih, h]

theorem pyDictInsert_keys {κ α : Type} [DecidableEq κ]
    (d : List (κ × α)) (k : κ) (v : α) :
    (pyDictInsert d k v).map Prod.fst =
      if (d.lookup k).isSome then d.map Prod.fst
      else d.map Prod.fst ++ [k] := by
  unfold pyDictInsert
  split
  · rw [List.map_map]
    refine List.map_congr_left ?_
    intro p _
    simp only [Function.comp_apply]
    by_cases hp : p.1 = k
    · rw [if_pos hp]
      exact hp.symm
    · rw [if_neg hp]
  · simp

theorem pyDictInsert_keys_nodup {κ α : Type} [DecidableEq κ]
    (d : List (κ × α)) (k : κ) (v : α)
    (h : (d.map Prod.fst).Nodup) :
    ((pyDictInsert d k v).map Prod.fst).Nodup := by
  rw [pyDictInsert_keys]
  split
  · exact h
  · next hn =>
    have hnone : d.lookup k = none := by
      cases hcase : d.lookup k
      · rfl
      · rw [hcase] at hn
        simp at hn
    rw [lookup_eq_none_iff] at hnone
    simp [List.nodup_append, h, hnone]

theorem pyDictInsert_forall {κ α : Type} [DecidableEq κ]
    {P : κ × α → Prop} (d : List (κ × α)) (k : κ) (v : α)
    (hd : ∀ p ∈ d, P p) (hkv : P (k, v)) :
    ∀ p ∈ pyDictInsert d k v, P p := by
  unfold pyDictInsert
  split
  · intro p hp
    obtain ⟨q, hq, rfl⟩ := List.mem_map.1 hp
    by_cases h : q.1 = k
    · simpa [h] using hkv
    · simpa [h] using hd q hq
  · intro p hp
    rcases List.mem_append.1 hp with h | h
    · exact hd p h
    · simp only [List.mem_singleton] at h
      exact h ▸ hkv

theorem pyDictInsert_key_present {κ α : Type} [DecidableEq κ]
    (d : List (κ × α)) (k k' : κ) (v : α)
    (h : k' ∈ d.map Prod.fst ∨ k' = k) :
    k' ∈ (pyDictInsert d k v).map Prod.fst := by
  rw [pyDictInsert_keys]
  split
  · next hs =>
    rcases h with h | rfl
    · exact h
    · by_contra hmem
      rw [← lookup_eq_none_iff] at hmem
      rw [hmem] at hs
      simp at hs
  · rcases h with h | rfl
    · simp [h]
    · simp

/-! ## Stack lemmas for `unset_backend`, the unwind loop, and `set_backend` -/

theorem unset_backend_concat (env : Env) (st : HandlerState) (l : List String)
    (x : String) (h : st.backend_stack = l ++ [x]) :
    (unset_backend env st).1 = some x
    ∧ (unset_backend env st).2.backend_stack = l
    ∧ (unset_backend env st).2.implicit_backend = st.implicit_backend
    ∧ (unset_backend env st).2.lockHeld = st.lockHeld
    ∧ (unset_backend env st).2.arrays = st.arrays
    ∧ (unset_backend env st).2.containers = st.containers
    ∧ (unset_backend env st).2.ivy_original_dict = st.ivy_original_dict := by
  have hne : st.backend_stack.isEmpty = false := by simp [h]
  simp [unset_backend, hne, h, List.dropLast_concat, List.getLast?_concat]

theorem unwindAux_spec (env : Env) :
    ∀ (n : Nat) (st : HandlerState) (temp : List String),
      st.backend_stack.length ≤ n →
      (unwindAux env n st temp).1 = temp ++ st.backend_stack.reverse
      ∧ (unwindAux env n st temp).2.backend_stack = []
      ∧ (unwindAux env n st temp).2.implicit_backend = st.implicit_backend
      ∧ (unwindAux env n st temp).2.lockHeld = st.lockHeld
      ∧ (unwindAux env n st temp).2.arrays = st.arrays
      ∧ (unwindAux env n st temp).2.containers = st.containers
      ∧ (unwindAux env n st temp).2.ivy_original_dict = st.ivy_original_dict := by
  intro n
  induction n with
  | zero =>
    intro st temp hlen
    have hnil : st.backend_stack = [] := List.length_eq_zero.1 (Nat.le_zero.1 hlen)
    simp [unwindAux, hnil]
  | succ n ih =>
    intro st temp hlen
    rcases List.eq_nil_or_concat st.backend_stack with hnil | ⟨l, x, hcat⟩
    · simp [unwindAux, hnil]
    · rw [List.concat_eq_append] at hcat
      have hne : st.backend_stack.isEmpty = false := by simp [hcat]
      have hstep : unwindAux env (n + 1) st temp
          = unwindAux env n (unset_backend env st).2
              (temp ++ [(unset_backend env st).1.getD ""]) := by
        simp [unwindAux, hne]
      obtain ⟨h1, h2, h3, h4, h5, h6, h7⟩ := unset_backend_concat env st l x hcat
      have hlen' : (unset_backend env st).2.backend_stack.length ≤ n := by
        rw [h2]
        have hl : st.backend_stack.length = l.length + 1 := by simp [hcat]
        omega
      obtain ⟨g1, g2, g3, g4, g5, g6, g7⟩ :=
        ih (unset_backend env st).2 (temp ++ [(unset_backend env st).1.getD ""]) hlen'
      refine ⟨?_, ?_, ?_, ?_, ?_, ?_, ?_⟩
      · rw [hstep, g1, h1, h2, hcat]
        simp
      · rw [hstep]; exact g2
      · rw [hstep, g3, h3]
      · rw [hstep, g4, h4]
      · rw [hstep, g5, h5]
      · rw [hstep, g6, h6]
      · rw [hstep, g7, h7]

theorem unwindLoop_spec (env : Env) (st : HandlerState) (temp : List String) :
    (unwindLoop env st temp).1 = temp ++ st.backend_stack.reverse
    ∧ (unwindLoop env st temp).2.backend_stack = []
    ∧ (unwindLoop env st temp).2.implicit_backend = st.implicit_backend
    ∧ (unwindLoop env st temp).2.lockHeld = st.lockHeld
    ∧ (unwindLoop env st temp).2.arrays = st.arrays
    ∧ (unwindLoop env st temp).2.containers = st.containers
    ∧ (unwindLoop env st temp).2.ivy_original_dict = st.ivy_original_dict :=
  unwindAux_spec env st.backend_stack.length st temp (Nat.le_refl _)

theorem set_backend_critical_ok_fields (env : Env) (path : String)
    (dynamic : Bool) (vi : List Nat) (no' : List ConvObj)
    (st3 st' : HandlerState)
    (h : set_backend_critical env path dynamic vi no' st3 = .ok st') :
    st'.backend_stack = st3.backend_stack ++ [path]
    ∧ st'.implicit_backend = st3.implicit_backend
    ∧ st'.lockHeld = false := by
  unfold set_backend_critical at h
  have hspec := unwindLoop_spec env st3 []
  generalize hu : unwindLoop env st3 [] = u at h hspec
  obtain ⟨u1, u2, u3, u4, u5, u6, u7⟩ := hspec
  simp only [] at h
  split at h
  · exact absurd h (by simp)
  · split at h
    · exact absurd h (by simp)
    · rw [Except.ok.injEq] at h
      subst h
      refine ⟨?_, ?_, rfl⟩
      · show (if dynamic = true then _ else _ : HandlerState).backend_stack = _
        split
        · show (u.2.backend_stack ++ u.1.reverse) ++ [path] = _
          rw [u1, u2]
          simp
        · show (u.2.backend_stack ++ u.1.reverse) ++ [path] = _
          rw [u1, u2]
          simp
      · show (if dynamic = true then _ else _ : HandlerState).implicit_backend = _
        split
        · exact u3
        · exact u3

theorem set_backend_ok_fields (env : Env) (b : String) (dynamic : Bool)
    (st st' : HandlerState) (h : set_backend env b dynamic st = .ok st') :
    st'.backend_stack = st.backend_stack ++ [(_backend_dict.lookup b).getD ""]
    ∧ st'.implicit_backend = st.implicit_backend
    ∧ st'.lockHeld = false := by
  unfold set_backend at h
  split at h
  · exact absurd h (by simp)
  · simp only [] at h
    obtain ⟨a1, a2, a3⟩ := set_backend_critical_ok_fields _ _ _ _ _ _ _ h
    exact ⟨a1, a2, a3⟩

/-! ## Lemmas about the namespace rebinder `_set_backend_as_ivy` -/

theorem setAsIvy_skip (k : String) :
    ∀ (original target backend : List (String × Val)) (invalid : List String),
      (∀ p ∈ original, p.1 ≠ k) →
      ((_set_backend_as_ivy original target backend invalid).1).lookup k
        = target.lookup k := by
  intro original
  induction original with
  | nil => intro target backend invalid _; rfl
  | cons p rest ih =>
    intro target backend invalid h
    obtain ⟨a, b⟩ := p
    have ha : a ≠ k := h (a, b) (List.mem_cons_self _ _)
    have hrest : ∀ p ∈ rest, p.1 ≠ k := fun p hp => h p (List.mem_cons_of_mem _ hp)
    unfold _set_backend_as_ivy
    split
    · rw [ih _ _ _ hrest, lookup_pyDictErase_ne _ _ _ (fun hh => ha hh.symm)]
    · rw [ih _ _ _ hrest, lookup_pyDictInsert_ne _ _ _ _ (fun hh => ha hh.symm)]

theorem setAsIvy_binds (k : String) (v : Val) :
    ∀ (original target backend : List (String × Val)) (invalid : List String),
      (original.map Prod.fst).Nodup →
      original.lookup k = some v →
      invalid.contains k = false →
      ((_set_backend_as_ivy original target backend invalid).1).lookup k
        = some (_wrap_function k ((backend.lookup k).getD v) v
            (backend.lookup k).isNone) := by
  intro original
  induction original with
  | nil => intro target backend invalid _ hlook _; simp [List.lookup] at hlook
  | cons p rest ih =>
    intro target backend invalid hnodup hlook hinv
    obtain ⟨a, b⟩ := p
    by_cases hak : a = k
    · subst hak
      rw [lookup_cons_self] at hlook
      obtain rfl : b = v := by injection hlook
      have hrest : ∀ p ∈ rest, p.1 ≠ a := by
        simp only [List.map_cons, List.nodup_cons] at hnodup
        intro p hp hcontra
        exact hnodup.1 (hcontra ▸ List.mem_map_of_mem Prod.fst hp)
      have hcond : ((backend.lookup a).isNone && invalid.contains a
          && (target.lookup a).isSome) = false := by
        rw [hinv]
        simp
      unfold _set_backend_as_ivy
      rw [if_neg (show ¬ (((backend.lookup a).isNone && invalid.contains a
        && (target.lookup a).isSome) = true) from by rw [hcond]; simp)]
      rw [setAsIvy_skip a rest _ _ _ hrest, lookup_pyDictInsert_self]
      by_cases hb : (backend.lookup a).isNone
      · have hbn : backend.lookup a = none := Option.isNone_iff_eq_none.1 hb
        rw [if_pos hb, lookup_pyDictInsert_self, hbn]
        rfl
      · rw [if_neg hb]
    · have hka : k ≠ a := fun hh => hak hh.symm
      rw [lookup_cons_ne _ _ _ _ hka] at hlook
      have hnodup' : (rest.map Prod.fst).Nodup := by
        simp only [List.map_cons, List.nodup_cons] at hnodup
        exact hnodup.2
      unfold _set_backend_as_ivy
      split
      · exact ih _ _ _ hnodup' hlook hinv
      · have hb' : ((if (backend.lookup a).isNone then pyDictInsert backend a b
            else backend).lookup k) = backend.lookup k := by
          split
          · exact lookup_pyDictInsert_ne backend a k b hka
          · rfl
        have hres := ih (pyDictInsert target a
            (_wrap_function a
              (((if (backend.lookup a).isNone then pyDictInsert backend a b
                 else backend).lookup a).getD b)
              b (backend.lookup a).isNone))
          (if (backend.lookup a).isNone then pyDictInsert backend a b
           else backend) invalid hnodup' hlook hinv
        rw [hb'] at hres
        exact hres

theorem setAsIvy_deletes (k : String) (v : Val) :
    ∀ (original target backend : List (String × Val)) (invalid : List String),
      (original.map Prod.fst).Nodup →
      original.lookup k = some v →
      invalid.contains k = true →
      backend.lookup k = none →
      (target.lookup k).isSome →
      ((_set_backend_as_ivy original target backend invalid).1).lookup k
        = none := by
  intro original
  induction original with
  | nil => intro target backend invalid _ hlook _ _ _; simp [List.lookup] at hlook
  | cons p rest ih =>
    intro target backend invalid hnodup hlook hinv hbnone htgt
    obtain ⟨a, b⟩ := p
    by_cases hak : a = k
    · subst hak
      have hrest : ∀ p ∈ rest, p.1 ≠ a := by
        simp only [List.map_cons, List.nodup_cons] at hnodup
        intro p hp hcontra
        exact hnodup.1 (hcontra ▸ List.mem_map_of_mem Prod.fst hp)
      unfold _set_backend_as_ivy
      rw [if_pos (by rw [hbnone, hinv, htgt]; simp)]
      rw [setAsIvy_skip a rest _ _ _ hrest, lookup_pyDictErase_self]
    · have hka : k ≠ a := fun hh => hak hh.symm
      rw [lookup_cons_ne _ _ _ _ hka] at hlook
      have hnodup' : (rest.map Prod.fst).Nodup := by
        simp only [List.map_cons, List.nodup_cons] at hnodup
        exact hnodup.2
      unfold _set_backend_as_ivy
      split
      · exact ih _ _ _ hnodup' hlook hinv hbnone
          (by rw [lookup_pyDictErase_ne _ _ _ hka]; exact htgt)
      · have hb' : ((if (backend.lookup a).isNone then pyDictInsert backend a b
            else backend).lookup k) = none := by
          split
          · rw [lookup_pyDictInsert_ne backend a k b hka]
            exact hbnone
          · exact hbnone
        exact ih _ _ _ hnodup' hlook hinv hb'
          (by rw [lookup_pyDictInsert_ne _ _ _ _ hka]; exact htgt)

/-! ## Lemmas for stacked calls, unwinding, and backend inference -/

theorem set_backend_many_ok (env : Env) :
    ∀ (names : List String) (st st' : HandlerState),
      set_backend_many env names st = .ok st' →
      st'.backend_stack = st.backend_stack
          ++ names.map (fun n => (_backend_dict.lookup n).getD "")
      ∧ st'.implicit_backend = st.implicit_backend := by
  intro names
  induction names with
  | nil =>
    intro st st' h
    obtain rfl : st = st' := by
      simpa [set_backend_many] using h
    simp
  | cons n rest ih =>
    intro st st' h
    unfold set_backend_many at h
    cases hc : set_backend env n false st with
    | error e => rw [hc] at h; exact absurd h (by simp)
    | ok st1 =>
      rw [hc] at h
      obtain ⟨i1, i2⟩ := ih st1 st' h
      obtain ⟨f1, f2, _⟩ := set_backend_ok_fields env n false st st1 hc
      refine ⟨?_, i2.trans f2⟩
      rw [i1, f1]
      simp

theorem unset_many_pops (env : Env) :
    ∀ (l : List String) (st : HandlerState), st.backend_stack = l →
      (unset_many env l.length st).1 = (l.map some).reverse
      ∧ (unset_many env l.length st).2.backend_stack = []
      ∧ (unset_many env l.length st).2.implicit_backend
          = st.implicit_backend := by
  intro l
  induction l using List.reverseRecOn with
  | nil =>
    intro st h
    simp [unset_many, h]
  | append_singleton l x ih =>
    intro st h
    have hlen : (l ++ [x]).length = l.length + 1 := by simp
    rw [hlen]
    have hstep : unset_many env (l.length + 1) st
        = ((unset_backend env st).1
            :: (unset_many env l.length (unset_backend env st).2).1,
           (unset_many env l.length (unset_backend env st).2).2) := rfl
    obtain ⟨h1, h2, h3, _, _, _, _⟩ := unset_backend_concat env st l x h
    obtain ⟨g1, g2, g3⟩ := ih (unset_backend env st).2 h2
    rw [hstep]
    refine ⟨?_, g2, by rw [g3, h3]⟩
    simp [g1, h1]

theorem current_backend_noargs_empty (st : HandlerState)
    (h : st.backend_stack = []) :
    (current_backend st [] []).1
      = (_backend_dict.lookup st.implicit_backend).getD "" := by
  simp [current_backend, h, _determine_backend_from_args,
    _determine_backend_from_elems]

mutual
theorem det_val_mem : (v : PyVal) → (f : String) →
    _determine_backend_from_args v = some f → f ∈ _array_types.map Prod.snd
  | .pydict es, f, h => det_pairs_mem es f h
  | .pylist es, f, h => det_elems_mem es f h
  | .pytuple es, f, h => det_elems_mem es f h
  | .obj m, f, h => lookup_mem _array_types m f h
  | .ivyArray (.pydict es), f, h => det_pairs_mem es f h
  | .ivyArray (.ivyArray d), f, h =>
    lookup_mem _array_types (classModule (PyVal.ivyArray d)) f h
  | .ivyArray (.pylist es), f, h =>
    lookup_mem _array_types (classModule (PyVal.pylist es)) f h
  | .ivyArray (.pytuple es), f, h =>
    lookup_mem _array_types (classModule (PyVal.pytuple es)) f h
  | .ivyArray (.obj m), f, h =>
    lookup_mem _array_types (classModule (PyVal.obj m)) f h

theorem det_pairs_mem : (es : List (String × PyVal)) → (f : String) →
    _determine_backend_from_dict_values es = some f →
    f ∈ _array_types.map Prod.snd
  | [], f, h => by simp [_determine_backend_from_dict_values] at h
  | (k, val) :: rest, f, h => by
    rw [_determine_backend_from_dict_values] at h
    cases hv : _determine_backend_from_args val with
    | some g =>
      rw [hv] at h
      simp at h
      exact h ▸ det_val_mem val g hv
    | none =>
      rw [hv] at h
      exact det_pairs_mem rest f h

theorem det_elems_mem : (es : List PyVal) → (f : String) →
    _determine_backend_from_elems es = some f →
    f ∈ _array_types.map Prod.snd
  | [], f, h => by simp [_determine_backend_from_elems] at h
  | x :: xs, f, h => by
    rw [_determine_backend_from_elems] at h
    cases hv : _determine_backend_from_args x with
    | some g =>
      rw [hv] at h
      simp at h
      exact h ▸ det_val_mem x g hv
    | none =>
      rw [hv] at h
      exact det_elems_mem xs f h
end

theorem array_types_roundtrip :
    ∀ f ∈ _array_types.map Prod.snd,
      _backend_dict.lookup (current_backend_str f) = some f := by
  decide

/-! ## Lemmas for the container/leaf de-duplication -/

theorem zip_map_fst {α β : Type} (f : α → β) :
    ∀ (l : List α), ∀ p ∈ (l.map f).zip l, p.1 = f p.2 := by
  intro l
  induction l with
  | nil => intro p hp; simp at hp
  | cons a as ih =>
    intro p hp
    simp only [List.map_cons, List.zip_cons_cons, List.mem_cons] at hp
    rcases hp with rfl | hp
    · rfl
    · exact ih p hp

theorem pyDictFold_forall {κ α : Type} [DecidableEq κ] {P : κ × α → Prop} :
    ∀ (ps : List (κ × α)) (acc : List (κ × α)),
      (∀ p ∈ acc, P p) → (∀ p ∈ ps, P p) →
      ∀ p ∈ ps.foldl (fun d q => pyDictInsert d q.1 q.2) acc, P p := by
  intro ps
  induction ps with
  | nil => intro acc hacc _; simpa using hacc
  | cons q rest ih =>
    intro acc hacc hps
    simp only [List.foldl_cons]
    apply ih
    · exact pyDictInsert_forall acc q.1 q.2 hacc (hps q (List.mem_cons_self _ _))
    · intro p hp
      exact hps p (List.mem_cons_of_mem _ hp)

theorem pyDictFromPairs_forall {κ α : Type} [DecidableEq κ] {P : κ × α → Prop}
    (ps : List (κ × α)) (h : ∀ p ∈ ps, P p) :
    ∀ p ∈ pyDictFromPairs ps, P p :=
  pyDictFold_forall ps [] (by simp) h

theorem pyDictFold_keys_nodup {κ α : Type} [DecidableEq κ] :
    ∀ (ps : List (κ × α)) (acc : List (κ × α)),
      ((acc.map Prod.fst).Nodup) →
      (((ps.foldl (fun d q => pyDictInsert d q.1 q.2) acc).map
          Prod.fst).Nodup) := by
  intro ps
  induction ps with
  | nil => intro acc hacc; simpa using hacc
  | cons q rest ih =>
    intro acc hacc
    simp only [List.foldl_cons]
    exact ih _ (pyDictInsert_keys_nodup acc q.1 q.2 hacc)

theorem pyDictFromPairs_keys_nodup {κ α : Type} [DecidableEq κ]
    (ps : List (κ × α)) :
    ((pyDictFromPairs ps).map Prod.fst).Nodup :=
  pyDictFold_keys_nodup ps [] (by simp)

theorem remove_intermediate_entries (arr_list : List IvyArr)
    (cont_list : List IvyCont) :
    ∀ a ∈ _remove_intermediate_arrays arr_list cont_list,
      (contLeafIds cont_list).contains a.dataId = false := by
  intro a ha
  simp only [_remove_intermediate_arrays] at ha
  obtain ⟨p, hp, rfl⟩ := List.mem_map.1 ha
  have hP : ∀ q ∈ ((arr_list.map (·.dataId)).zip arr_list).filter
      (fun q => !((((cont_list.map (·.leaves)).flatten).map
        leafId).contains q.1)),
      q.1 = q.2.dataId
      ∧ ((((cont_list.map (·.leaves)).flatten).map
          leafId).contains q.1) = false := by
    intro q hq
    obtain ⟨hmem, hfilt⟩ := List.mem_filter.1 hq
    refine ⟨zip_map_fst (·.dataId) arr_list q hmem, ?_⟩
    simpa using hfilt
  have hpq := pyDictFromPairs_forall _ hP p hp
  rw [contLeafIds, ← hpq.1]
  exact hpq.2

theorem remove_intermediate_nodup (arr_list : List IvyArr)
    (cont_list : List IvyCont) :
    ((_remove_intermediate_arrays arr_list cont_list).map
        (·.dataId)).Nodup := by
  simp only [_remove_intermediate_arrays]
  rw [List.map_map]
  have hP : ∀ q ∈ ((arr_list.map (·.dataId)).zip arr_list).filter
      (fun q => !((((cont_list.map (·.leaves)).flatten).map
        leafId).contains q.1)),
      q.1 = q.2.dataId := by
    intro q hq
    exact zip_map_fst (·.dataId) arr_list q (List.mem_filter.1 hq).1
  have hcongr : (pyDictFromPairs (((arr_list.map (·.dataId)).zip
      arr_list).filter
      (fun q => !((((cont_list.map (·.leaves)).flatten).map
        leafId).contains q.1)))).map ((fun a => a.dataId) ∘ Prod.snd)
      = (pyDictFromPairs (((arr_list.map (·.dataId)).zip
      arr_list).filter
      (fun q => !((((cont_list.map (·.leaves)).flatten).map
        leafId).contains q.1)))).map Prod.fst := by
    refine List.map_congr_left ?_
    intro q hq
    have hq2 := pyDictFromPairs_forall _ hP q hq
    simp only [Function.comp_apply]
    exact hq2.symm
  rw [hcongr]
  exact pyDictFromPairs_keys_nodup _

/-! ## Claim theorems and witnesses -/


/-- C1: stack LIFO correctness — from an empty stack, after any sequence
of successful `set_backend` calls with names n1..nk, calling
`unset_backend` k times returns the backend modules of n_k, …, n_1 in
that order, leaves the stack empty and the implicit default unchanged,
and `current_backend()` with no arguments then resolves to the
process-wide implicit default backend's module. -/
theorem stack_lifo_correctness (env : Env) (names : List String)
    (st st' : HandlerState) (h0 : st.backend_stack = [])
    (h : set_backend_many env names st = .ok st') :
    (unset_many env names.length st').1
      = (names.map (fun n => some ((_backend_dict.lookup n).getD ""))).reverse
    ∧ (unset_many env names.length st').2.backend_stack = []
    ∧ (unset_many env names.length st').2.implicit_backend
        = st.implicit_backend
    ∧ (current_backend (unset_many env names.length st').2 [] []).1
        = (_backend_dict.lookup st.implicit_backend).getD "" := by
  obtain ⟨m1, m2⟩ := set_backend_many_ok env names st st' h
  rw [h0, List.nil_append] at m1
  have hlen : names.length
      = (names.map (fun n => (_backend_dict.lookup n).getD "")).length := by
    simp
  rw [hlen]
  obtain ⟨p1, p2, p3⟩ := unset_many_pops env _ st' m1
  refine ⟨?_, p2, ?_, ?_⟩
  · rw [p1]
    simp [List.map_map, Function.comp]
  · rw [p3, m2]
  · rw [current_backend_noargs_empty _ p2, p3, m2]

/-- Witness for C1 at the concrete run pushing numpy then torch. -/
theorem stack_lifo_correctness_witness :
    (unset_many envAllInstalled 2
        { initState with backend_stack := ["ivy.functional.backends.numpy",
            "ivy.functional.backends.torch"] }).1
      = [some "ivy.functional.backends.torch",
         some "ivy.functional.backends.numpy"]
    ∧ (unset_many envAllInstalled 2
        { initState with backend_stack := ["ivy.functional.backends.numpy",
            "ivy.functional.backends.torch"] }).2.backend_stack = []
    ∧ (unset_many envAllInstalled 2
        { initState with backend_stack := ["ivy.functional.backends.numpy",
            "ivy.functional.backends.torch"] }).2.implicit_backend = "numpy"
    ∧ (current_backend (unset_many envAllInstalled 2
        { initState with backend_stack := ["ivy.functional.backends.numpy",
            "ivy.functional.backends.torch"] }).2 [] []).1
        = "ivy.functional.backends.numpy" := by
  have h := stack_lifo_correctness envAllInstalled ["numpy", "torch"]
    initState
    { initState with backend_stack := ["ivy.functional.backends.numpy",
        "ivy.functional.backends.torch"] } rfl rfl
  exact ⟨h.1, h.2.1, h.2.2.1, h.2.2.2⟩

/-- C7: for a name that is not a registered backend, `set_backend`
raises `InvalidBackendError` immediately, for either value of `dynamic`,
and the whole handler state — backend stack, public namespace, snapshot,
and all tracked objects' payloads — is returned unchanged (the failure
occurs before the dynamic export phase and before any rebinding). -/
theorem set_backend_unregistered_error (env : Env) (name : String)
    (dynamic : Bool) (st : HandlerState)
    (h : _backend_dict.lookup name = none) :
    set_backend env name dynamic st = .error (.invalidBackend, st) := by
  unfold set_backend
  rw [h]
  rfl

/-- Witness for C7 at an unregistered name with `dynamic = true`. -/
theorem set_backend_unregistered_error_witness :
    set_backend envAllInstalled "nonsense" true initState
      = .error (.invalidBackend, initState) :=
  set_backend_unregistered_error envAllInstalled "nonsense" true initState
    rfl

/-- C8: a successful `set_backend` leaves the backend stack equal to the
previous stack with the new backend's module appended — the internal
unwind-and-replay is observationally a no-op on pre-existing entries. -/
theorem set_backend_pushes_on_top (env : Env) (backend : String)
    (dynamic : Bool) (st st' : HandlerState)
    (h : set_backend env backend dynamic st = .ok st') :
    st'.backend_stack
      = st.backend_stack ++ [(_backend_dict.lookup backend).getD ""] :=
  (set_backend_ok_fields env backend dynamic st st' h).1

/-- Witness for C8 at a concrete successful push. -/
theorem set_backend_pushes_on_top_witness :
    ({ initState with
        backend_stack := ["ivy.functional.backends.numpy"],
        defaultDevice := some "cpu" } : HandlerState).backend_stack
      = initState.backend_stack ++ ["ivy.functional.backends.numpy"] :=
  set_backend_pushes_on_top envAllInstalled "numpy" false initState
    { initState with
      backend_stack := ["ivy.functional.backends.numpy"],
      defaultDevice := some "cpu" } rfl

/-- C3 (code bug): when an exception is raised inside the critical
section — here the import of a registered but uninstalled backend —
`set_backend` propagates the error with the `backend_setter` lock still
held, because the source releases the lock only on the success path (no
try/finally).  The claim (and spec section 7) says the lock is always
released; the code violates it. -/
theorem set_backend_failure_keeps_lock :
    set_backend envNoMindspore "mindspore" false initState
      = .error (.importError "ivy.functional.backends.mindspore",
          { initState with lockHeld := true })
    ∧ ({ initState with lockHeld := true } : HandlerState).lockHeld = true :=
  ⟨rfl, rfl⟩

/-- C4: resolution order of `current_backend` — with an empty stack a
native array of backend B resolves to B's module; once any backend C has
been pushed by a successful `set_backend`, the stack top C wins
regardless of the arguments; with an empty stack and no inferable
argument, the process-wide implicit default backend's module is
returned. -/
theorem inference_precedence :
    (∀ (st : HandlerState) (m path : String), st.backend_stack = [] →
        _array_types.lookup m = some path →
        (current_backend st [PyVal.obj m] []).1 = path)
    ∧ (∀ (env : Env) (c : String) (dynamic : Bool) (st₀ st : HandlerState)
        (args : List PyVal) (kwargs : List (String × PyVal)),
        set_backend env c dynamic st₀ = .ok st →
        (current_backend st args kwargs).1
          = (_backend_dict.lookup c).getD "")
    ∧ (∀ (st : HandlerState) (args : List PyVal)
        (kwargs : List (String × PyVal)), st.backend_stack = [] →
        _determine_backend_from_args
          (.pylist (args ++ kwargs.map Prod.snd)) = none →
        (current_backend st args kwargs).1
          = (_backend_dict.lookup st.implicit_backend).getD "") := by
  refine ⟨?_, ?_, ?_⟩
  · intro st m path h0 hm
    simp [current_backend, h0, _determine_backend_from_args,
      _determine_backend_from_elems, hm]
  · intro env c dynamic st₀ st args kwargs h
    obtain ⟨f1, _, _⟩ := set_backend_ok_fields env c dynamic st₀ st h
    have htop : st.backend_stack.getLast?
        = some ((_backend_dict.lookup c).getD "") := by
      rw [f1, List.getLast?_concat]
    simp [current_backend, htop]
  · intro st args kwargs h0 hdet
    simp [current_backend, h0, hdet]

/-- Witness for C4: torch array inferred on an empty stack; numpy stack
top beating a torch array; fallback to the numpy implicit default. -/
theorem inference_precedence_witness :
    (current_backend initState [PyVal.obj "torch"] []).1
        = "ivy.functional.backends.torch"
    ∧ (current_backend { initState with
          backend_stack := ["ivy.functional.backends.numpy"],
          defaultDevice := some "cpu" }
        [PyVal.obj "torch"] []).1 = "ivy.functional.backends.numpy"
    ∧ (current_backend initState [PyVal.obj "builtins"] []).1
        = "ivy.functional.backends.numpy" :=
  ⟨inference_precedence.1 initState "torch" _ rfl rfl,
   inference_precedence.2.1 envAllInstalled "numpy" false initState _
     [PyVal.obj "torch"] [] rfl,
   inference_precedence.2.2 initState [PyVal.obj "builtins"] [] rfl rfl⟩

/-- C10 (implicit): with an empty stack, a `current_backend(v)` call
that successfully infers a backend module f from its arguments returns
f and, as a side effect, overwrites the process-wide implicit default
with f's backend name, so a subsequent `current_backend()` with no
arguments returns f rather than the initial numpy default. -/
theorem current_backend_inference_sets_implicit (st : HandlerState)
    (args : List PyVal) (kwargs : List (String × PyVal)) (f : String)
    (h0 : st.backend_stack = [])
    (hdet : _determine_backend_from_args
        (.pylist (args ++ kwargs.map Prod.snd)) = some f) :
    (current_backend st args kwargs).1 = f
    ∧ (current_backend st args kwargs).2.implicit_backend
        = current_backend_str f
    ∧ (current_backend st args kwargs).2.backend_stack = []
    ∧ (current_backend (current_backend st args kwargs).2 [] []).1 = f := by
  have hres : current_backend st args kwargs
      = (f, { st with implicit_backend := current_backend_str f }) := by
    simp [current_backend, h0, hdet]
  rw [hres]
  refine ⟨rfl, rfl, h0, ?_⟩
  rw [current_backend_noargs_empty _ (by exact h0)]
  have hrt := array_types_roundtrip f (det_val_mem _ f hdet)
  simp [hrt]

/-- Witness for C10 at a torch native array. -/
theorem current_backend_inference_sets_implicit_witness :
    (current_backend initState [PyVal.obj "torch"] []).1
        = "ivy.functional.backends.torch"
    ∧ (current_backend initState [PyVal.obj "torch"] []).2.implicit_backend
        = "torch"
    ∧ (current_backend initState [PyVal.obj "torch"] []).2.backend_stack = []
    ∧ (current_backend
        (current_backend initState [PyVal.obj "torch"] []).2 [] []).1
        = "ivy.functional.backends.torch" := by
  have h := current_backend_inference_sets_implicit initState
    [PyVal.obj "torch"] [] "ivy.functional.backends.torch" rfl rfl
  exact ⟨h.1, h.2.1, h.2.2.1, h.2.2.2⟩



/-- C2 (counterexample): a successful `set_backend` can leave a name of
the Original Namespace Snapshot unbound — "bfloat16" is in the snapshot
(and in the backend's `invalid_dtypes`, and absent from the backend's
own dict), and after the switch it is deleted from the public
namespace, refuting the claim that no snapshot name is left unbound. -/
theorem snapshot_name_unbound_after_set_backend :
    (set_backend envInvalidDtype "torch" false stSnapshot).toOption.map
        (fun s => (s.ivy_original_dict.lookup "bfloat16",
                   s.ivy_dict.lookup "bfloat16"))
      = some (some (Val.base 0), none) := rfl

/-- C2 (amended): after a `set_backend` rebinds the namespace, every
snapshot name that is NOT among the backend's invalid dtypes is bound to
the wrapped implementation — the backend's own when it defines the name,
otherwise the original fallback marked compositional; a snapshot name
that IS an invalid dtype the backend does not define is instead deleted
from the namespace. -/
theorem snapshot_binding_amended :
    (∀ (original target backend : List (String × Val))
        (invalid : List String) (k : String) (v : Val),
        (original.map Prod.fst).Nodup →
        original.lookup k = some v →
        invalid.contains k = false →
        ((_set_backend_as_ivy original target backend invalid).1).lookup k
          = some (_wrap_function k ((backend.lookup k).getD v) v
              (backend.lookup k).isNone))
    ∧ (∀ (original target backend : List (String × Val))
        (invalid : List String) (k : String) (v : Val),
        (original.map Prod.fst).Nodup →
        original.lookup k = some v →
        invalid.contains k = true →
        backend.lookup k = none →
        (target.lookup k).isSome →
        ((_set_backend_as_ivy original target backend invalid).1).lookup k
          = none) :=
  ⟨fun o t b i k v h1 h2 h3 => setAsIvy_binds k v o t b i h1 h2 h3,
   fun o t b i k v h1 h2 h3 h4 h5 => setAsIvy_deletes k v o t b i h1 h2 h3 h4 h5⟩

/-- Witness for the amended C2: a snapshot name the backend lacks is
bound to the wrapped original fallback, marked compositional. -/
theorem snapshot_binding_amended_witness :
    ((_set_backend_as_ivy [("add", Val.base 1)] [("add", Val.base 1)] []
        []).1).lookup "add"
      = some (Val.wrapped "add" (Val.base 1) (Val.base 1) true) :=
  snapshot_binding_amended.1 [("add", Val.base 1)] [("add", Val.base 1)]
    [] [] "add" (Val.base 1) (by decide) rfl rfl

/-- C5: version-specific resolution — for the range grammar
`op_v_1p0_to_1p5` the canonical name is produced exactly when
(1,0) ≤ version ≤ (1,5) (inclusive), and for `op_v_1p6_and_above`
exactly when version ≥ (1,6), for every well-formed version string; in
particular `set_backend_to_specific_version` binds canonical `op` to the
first implementation for a backend reporting "1.4.0" and to the second
for one reporting "2.0.0". -/
theorem version_specific_resolution :
    (∀ (s : List Char) (v : List Nat), parseVersionTuple s = some v →
        fn_name_from_version_specific_fn_name ("op_v_1p0_to_1p5".toList) s
          = if tupLe [1, 0] v && tupLe v [1, 5] then
              .ok (some ("op".toList)) else .ok none)
    ∧ (∀ (s : List Char) (v : List Nat), parseVersionTuple s = some v →
        fn_name_from_version_specific_fn_name
            ("op_v_1p6_and_above".toList) s
          = if tupLe [1, 6] v then .ok (some ("op".toList)) else .ok none)
    ∧ (set_backend_to_specific_version envVersion14
          "ivy.functional.backends.numpy").toOption.map
        (fun d => d.lookup "op") = some (some (Val.fn "op" 1))
    ∧ (set_backend_to_specific_version envVersion20
          "ivy.functional.backends.numpy").toOption.map
        (fun d => d.lookup "op") = some (some (Val.fn "op" 2)) := by
  refine ⟨?_, ?_, rfl, rfl⟩
  · intro s v h
    unfold fn_name_from_version_specific_fn_name
    rw [h]
    rfl
  · intro s v h
    unfold fn_name_from_version_specific_fn_name
    rw [h]
    rfl

/-- Witness for C5 at version string "1.4.0". -/
theorem version_specific_resolution_witness :
    fn_name_from_version_specific_fn_name ("op_v_1p0_to_1p5".toList)
        ("1.4.0".toList)
      = if tupLe [1, 0] [1, 4, 0] && tupLe [1, 4, 0] [1, 5] then
          .ok (some ("op".toList)) else .ok none :=
  version_specific_resolution.1 ("1.4.0".toList) [1, 4, 0] (by decide)

/-- C6 (code bug): `choose_random_backend` fails with "all backends are
excluded" as soon as 4 names are excluded, although the registry holds 5
backends and "mindspore" is still available — the registered,
non-excluded backend is not returned; with only 3 excluded a
non-excluded name is returned as the claim describes. -/
theorem choose_random_backend_four_excluded_bug :
    choose_random_backend ["numpy", "jax", "tensorflow", "torch"] 0
      = .error .assertionError
    ∧ ("mindspore", "ivy.functional.backends.mindspore") ∈ _backend_dict
    ∧ "mindspore" ∉ (["numpy", "jax", "tensorflow", "torch"] : List String)
    ∧ choose_random_backend ["numpy", "jax", "tensorflow"] 0 = .ok "torch" :=
  ⟨rfl, by decide, by decide, rfl⟩

/-- C9: container/leaf de-duplication during the export phase — the
standalone list produced by `_remove_intermediate_arrays` contains no
array whose payload identity occurs among the flattened container
leaves, its payload identities are pairwise distinct, an array sharing
its payload with a container leaf is never in the conversion list as a
standalone object, and every dynamic container is in the conversion
list (so the shared payload is converted exactly once, via the
container). -/
theorem container_leaf_dedup (array_list : List IvyArr)
    (container_list : List IvyCont) :
    (∀ a ∈ _remove_intermediate_arrays array_list container_list,
        (contLeafIds container_list).contains a.dataId = false)
    ∧ ((_remove_intermediate_arrays array_list container_list).map
          (·.dataId)).Nodup
    ∧ (∀ a ∈ array_list,
        (contLeafIds container_list).contains a.dataId = true →
        ConvObj.arrObj a ∉ (convert_from_source_backend_to_numpy [] []
            array_list container_list).2.1)
    ∧ (∀ c ∈ container_list, c.dynamic_backend = true →
        ConvObj.contObj c ∈ (convert_from_source_backend_to_numpy [] []
            array_list container_list).2.1) := by
  refine ⟨remove_intermediate_entries array_list container_list,
    remove_intermediate_nodup array_list container_list, ?_, ?_⟩
  · intro a ha hcont hmem
    simp only [convert_from_source_backend_to_numpy, List.nil_append,
      List.mem_append, List.mem_map] at hmem
    rcases hmem with (⟨b, hb, hba⟩ | ⟨c, hc, hca⟩)
    · have hba' : b = a := by injection hba
      subst hba'
      have hbmem : b ∈ _remove_intermediate_arrays
          (array_list.filter (fun x => x.initialized)) container_list :=
        (List.mem_filter.1 hb).1
      have hfalse := remove_intermediate_entries _ container_list b hbmem
      rw [hfalse] at hcont
      exact absurd hcont (by simp)
    · exact ConvObj.noConfusion hca
  · intro c hc hdyn
    simp only [convert_from_source_backend_to_numpy, List.nil_append,
      List.mem_append, List.mem_map]
    right
    exact ⟨c, List.mem_filter.2 ⟨hc, hdyn⟩, rfl⟩

/-- Witness for C9: a standalone array and a container sharing payload
identity 5 — the standalone object is excluded, the container is
converted. -/
theorem container_leaf_dedup_witness :
    ConvObj.arrObj arrSharedPayload ∉ (convert_from_source_backend_to_numpy
        [] [] [arrSharedPayload] [contSharedPayload]).2.1
    ∧ ConvObj.contObj contSharedPayload ∈
        (convert_from_source_backend_to_numpy
          [] [] [arrSharedPayload] [contSharedPayload]).2.1 :=
  ⟨(container_leaf_dedup [arrSharedPayload] [contSharedPayload]).2.2.1
      arrSharedPayload (by decide) (by decide),
   (container_leaf_dedup [arrSharedPayload] [contSharedPayload]).2.2.2
      contSharedPayload (by decide) (by decide)⟩

end IvyHandler
